import Mathlib

/-!
Verification of the two-stage smoke/fire detection pipeline
(jetson_yolo11_two_stage_mjpeg_server_v5_4_telegram.py).

The development shallowly embeds the pure control logic of the source:
the smoke confirmation gate, the fire hold timer, the result drain, the
burst sampler over the frame ring buffer, the capacity-one job channel,
the secondary fire worker, the NMS postprocessing, and the Telegram
alerter rate limiting. Wall-clock times are rationals; machine floats of
the source are modelled exactly as rationals since only comparisons and
additions occur.
-/

namespace TwoStage

/-! ### Confirmation gate (run_loop lines 861-869) -/

/-- State of the smoke confirmation gate: the consecutive qualifying
frame counter `smoke_consec` and the `smoke_alert_sent` flag. -/
structure GateState where
  smoke_consec : Nat
  smoke_alert_sent : Bool
deriving DecidableEq, Repr, Inhabited

/-- One frame of the gate: a qualifying frame (`has_smoke`, at least one
detection surviving filtering) increments the counter; a non-qualifying
frame resets the counter to 0 and clears the alert-sent flag. -/
def gateStep (g : GateState) (qualifying : Bool) : GateState :=
  if qualifying then { g with smoke_consec := g.smoke_consec + 1 }
  else { smoke_consec := 0, smoke_alert_sent := false }

/-- Run the gate from its initial state over a sequence of per-frame
qualifying flags. -/
def runGate (flags : List Bool) : GateState :=
  flags.foldl gateStep { smoke_consec := 0, smoke_alert_sent := false }

/-- Confirmation output: smoke_consec at or above the threshold N
(source: smoke_confirmed = smoke_consec >= args.smoke_consec). -/
def smoke_confirmed (n : Nat) (g : GateState) : Bool :=
  decide (n ≤ g.smoke_consec)

/-! ### Fire results and the result drain (run_loop lines 901-922) -/

/-- A Result emitted by the fire worker onto the out queue. -/
structure FireResult where
  ok : Bool
  fire_hits : Nat
  best_score : ℚ
  saved : List Nat
  err : Option String
deriving DecidableEq, Repr, Inhabited

/-- A Job passed to the fire worker: the burst of cropped frames plus
trigger metadata. -/
structure RoiFrame where
  decodeOk : Bool
  detScores : List ℚ
deriving DecidableEq, Repr, Inhabited

structure Job where
  rois : List RoiFrame
  ts : ℚ
  smoke_consec : Nat
deriving DecidableEq, Repr, Inhabited

/-- Main-loop state touched by the fire-check logic. -/
structure LoopState where
  gate : GateState
  last_fire_check : ℚ
  fire_hold_until : ℚ
  last_fire_confirm : ℚ
  last_fire_snapshot : ℚ
  job_channel : Option Job
deriving DecidableEq, Repr, Inhabited

/-- Drain a single Result (body of the drain loop, lines 906-920): a
successful Result updates last_fire_check; when its hit count reaches
the confirm threshold it sets the hold timer and last_fire_confirm, and
only inside that case a non-empty saved list updates last_fire_snapshot.
A failed Result is merely logged. -/
def drainOne (now : ℚ) (fire_confirm : Nat) (fire_hold : ℚ)
    (s : LoopState) (r : FireResult) : LoopState :=
  if r.ok then
    let s1 := { s with last_fire_check := now }
    if fire_confirm ≤ r.fire_hits then
      let s2 := { s1 with fire_hold_until := now + fire_hold,
                          last_fire_confirm := now }
      if r.saved.isEmpty then s2
      else { s2 with last_fire_snapshot := now }
    else s1
  else s

/-- Drain every currently available Result in order (the while loop with
get_nowait at lines 904-922). -/
def drainAll (now : ℚ) (fire_confirm : Nat) (fire_hold : ℚ)
    (s : LoopState) (rs : List FireResult) : LoopState :=
  rs.foldl (drainOne now fire_confirm fire_hold) s

/-- Exposed fire flag (line 924): has_fire = now < fire_hold_until. -/
def has_fire (now fire_hold_until : ℚ) : Bool :=
  decide (now < fire_hold_until)

/-! ### Telegram alerter (send_smoke_alert lines 150-197 and
send_fire_alert lines 199-246) -/

/-- State of the TelegramAlerter relevant to the enqueue contract. The
enabled flag is the outcome of credential validation; the task queue has
capacity 10 (queue.Queue with maxsize 10). -/
structure AlerterState where
  enabled : Bool
  min_confidence : ℚ
  smoke_cooldown : ℚ
  fire_cooldown : ℚ
  last_smoke_time : ℚ
  last_fire_time : ℚ
  queue_len : Nat
deriving DecidableEq, Repr, Inhabited

/-- Smoke alert enqueue. Mirrors the source order: enabled check,
confidence floor, cooldown check that also records the timestamp, JPEG
encode, then the non-blocking queue put. -/
def send_smoke_alert (s : AlerterState) (confidence now : ℚ)
    (encodeOk : Bool) : Bool × AlerterState :=
  if !s.enabled then (false, s)
  else if confidence < s.min_confidence then (false, s)
  else if now - s.last_smoke_time < s.smoke_cooldown then (false, s)
  else
    let s1 := { s with last_smoke_time := now }
    if !encodeOk then (false, s1)
    else if 10 ≤ s1.queue_len then (false, s1)
    else (true, { s1 with queue_len := s1.queue_len + 1 })

/-- Fire alert enqueue: identical shape on the fire-kind fields. -/
def send_fire_alert (s : AlerterState) (confidence now : ℚ)
    (encodeOk : Bool) : Bool × AlerterState :=
  if !s.enabled then (false, s)
  else if confidence < s.min_confidence then (false, s)
  else if now - s.last_fire_time < s.fire_cooldown then (false, s)
  else
    let s1 := { s with last_fire_time := now }
    if !encodeOk then (false, s1)
    else if 10 ≤ s1.queue_len then (false, s1)
    else (true, { s1 with queue_len := s1.queue_len + 1 })

/-! ### Burst sampler over the ring buffer (run_loop lines 926-959) -/

/-- One entry of the 60-deep ring buffer of JPEG-encoded frames, seen
through the outcomes of the operations the sampler performs on it:
whether cv2.imdecode succeeds, whether re-encoding the crop succeeds,
and the cropped content as the worker will later see it. -/
structure RingEntry where
  decodeOk : Bool
  encodeOk : Bool
  payload : RoiFrame
deriving DecidableEq, Repr, Inhabited

/-- The ring-buffer walk of lines 937-953: idx starts at len(ring)-1 and
decreases by the stride each iteration; the loop runs while idx is at
least 0 and fewer than `need` frames are taken; an entry is taken when
its decode and the crop re-encode both succeed. The second Nat argument
i1 is idx+1 so that i1 = 0 encodes a negative idx. The stride is clamped
to at least 1 as at line 929. The first Nat argument is pure structural
fuel: every iteration lowers i1 by at least one, so fuel equal to the
initial i1 (as supplied by collectBurst below) never runs out before the
loop guard stops the walk. Returns the list of taken indices, newest
first. -/
def collectBurstGo (ring : List RingEntry) (stride need : Nat) :
    Nat → Nat → Nat → List Nat
  | 0, _, _ => []
  | _ + 1, 0, _ => []
  | fuel + 1, i + 1, taken =>
    if taken < need then
      let e := ring.getD i default
      if e.decodeOk && e.encodeOk then
        i :: collectBurstGo ring stride need fuel (i + 1 - max 1 stride) (taken + 1)
      else
        collectBurstGo ring stride need fuel (i + 1 - max 1 stride) taken
    else []

/-- The ring-buffer walk started at index i1 - 1 with `taken` frames
already collected. -/
def collectBurst (ring : List RingEntry) (stride need i1 taken : Nat) :
    List Nat :=
  collectBurstGo ring stride need i1 i1 taken

/-- Full burst construction (lines 928-959): walk the ring; if zero
frames were collected, fall back to the single cropped current live
frame, kept only when its JPEG encode succeeds. -/
def buildBurst (ring : List RingEntry) (stride need : Nat)
    (live : RoiFrame) (liveEncodeOk : Bool) : List RoiFrame :=
  let idxs := collectBurst ring stride need ring.length 0
  let burst := idxs.map (fun i => (ring.getD i default).payload)
  if burst.isEmpty then (if liveEncodeOk then [live] else []) else burst

/-! ### One main-loop tick (run_loop lines 861-978, fire-check logic) -/

/-- Configuration options read by the modelled part of run_loop. -/
structure LoopCfg where
  smoke_consec_n : Nat
  fire_confirm : Nat
  fire_check_cooldown : ℚ
  fire_hold : ℚ
  burst_frames : Nat
  burst_stride : Nat
  snap_count : Nat
deriving DecidableEq, Repr, Inhabited

/-- Per-tick environment inputs: the wall clock, whether the frame
qualifies (has_smoke), whether a Telegram smoke alert was accepted this
tick, the Results currently available on the out queue, the ring-buffer
contents, and the cropped current live frame with its encode outcome. -/
structure TickInput where
  now : ℚ
  qualifying : Bool
  alertAccepted : Bool
  results : List FireResult
  ring : List RingEntry
  live : RoiFrame
  liveEncodeOk : Bool
deriving Repr, Inhabited

/-- The gate state after the per-tick gate update (lines 863-869) and
the smoke-alert flag update (lines 876-896); whether the Telegram send
was reached and accepted is abstracted into the alertAccepted input. -/
def tickGate (cfg : LoopCfg) (s : LoopState) (inp : TickInput) : GateState :=
  let g1 := gateStep s.gate inp.qualifying
  if smoke_confirmed cfg.smoke_consec_n g1 && !g1.smoke_alert_sent &&
      inp.alertAccepted then
    { g1 with smoke_alert_sent := true }
  else g1

/-- The loop state after the result drain of this tick (lines 901-922),
performed on the state carrying the updated gate. -/
def tickDrained (cfg : LoopCfg) (s : LoopState) (inp : TickInput) :
    LoopState :=
  drainAll inp.now cfg.fire_confirm cfg.fire_hold
    { s with gate := tickGate cfg s inp } inp.results

/-- Whether this tick performs a fire check: should_check_fire of line
899 (confirmed smoke and cooldown elapsed against the pre-drain
last_fire_check) and not in hold against the post-drain timer (lines
924-926). -/
def tickAttempt (cfg : LoopCfg) (s : LoopState) (inp : TickInput) : Bool :=
  smoke_confirmed cfg.smoke_consec_n (gateStep s.gate inp.qualifying) &&
    decide (cfg.fire_check_cooldown ≤ inp.now - s.last_fire_check) &&
    !has_fire inp.now (tickDrained cfg s inp).fire_hold_until

/-- The Job built on an attempted check (lines 961-969): the burst plus
timestamp and consecutive-count metadata. -/
def tickJob (cfg : LoopCfg) (s : LoopState) (inp : TickInput) : Job :=
  { rois := buildBurst inp.ring cfg.burst_stride cfg.burst_frames
      inp.live inp.liveEncodeOk
    ts := inp.now
    smoke_consec := (tickGate cfg s inp).smoke_consec }

/-- One iteration of the main loop, in source order: gate update, smoke
alert, trigger predicate on the pre-drain last_fire_check, result drain,
has_fire, and the gated fire check (926-978) which builds the burst,
submits the Job non-blockingly to the capacity-one channel (dropped when
the channel is full), and updates last_fire_check regardless of the
submit outcome. Returns the new state and whether a check was
attempted. -/
def tick (cfg : LoopCfg) (s : LoopState) (inp : TickInput) :
    LoopState × Bool :=
  if tickAttempt cfg s inp then
    let s1 := tickDrained cfg s inp
    let s2 := match s1.job_channel with
      | none => { s1 with job_channel := some (tickJob cfg s inp) }
      | some _ => s1
    ({ s2 with last_fire_check := inp.now }, true)
  else (tickDrained cfg s inp, false)

/-- Run the main loop over a list of tick inputs. -/
def runTicks (cfg : LoopCfg) (s : LoopState) (inps : List TickInput) :
    LoopState :=
  inps.foldl (fun s i => (tick cfg s i).1) s

/-! ### Fire worker (fire_worker_main lines 506-612) -/

/-- Maximum detection score of a decoded ROI (max over dets by score,
line 566); meaningful on non-empty lists. -/
def detMaxScore : List ℚ → ℚ
  | [] => 0
  | d :: ds => ds.foldl max d

/-- The per-job loop of lines 542-575 seen through its three tracked
quantities: the hit count, the best score so far, and whether a best
frame image has been recorded (best img is not None). A frame whose
decode fails is skipped; a frame counts as a hit when its filtered
detection list is non-empty; the best image updates only on a strictly
larger top score. Detections arrive already filtered by the area > 4
cut of line 562, so a RoiFrame carries the surviving scores. -/
def workerLoop : List RoiFrame → Nat → ℚ → Bool → Nat × ℚ × Bool
  | [], hits, best, bestSet => (hits, best, bestSet)
  | f :: rest, hits, best, bestSet =>
    if f.decodeOk then
      if f.detScores.isEmpty then workerLoop rest hits best bestSet
      else
        let top := detMaxScore f.detScores
        if best < top then workerLoop rest (hits + 1) top true
        else workerLoop rest (hits + 1) best bestSet
    else workerLoop rest hits best bestSet

/-- Process one Job into its Result (lines 535-612): success always,
with the hit count, best score, and the snapshot filenames snap_0 ..
snap_(count-1) written exactly when a best frame exists. -/
def workerProcessJob (rois : List RoiFrame) (snap_count : Nat) :
    FireResult :=
  let r := workerLoop rois 0 0 false
  { ok := true
    fire_hits := r.1
    best_score := r.2.1
    saved := if r.2.2 then List.range snap_count else []
    err := none }

/-- The whole worker (lines 506-612): an engine load failure emits one
failed Result and the worker returns; otherwise each received Job, up to
the terminating sentinel, yields exactly one success Result. The jobs
list models the sequence of Jobs received before the sentinel. -/
def fireWorker (engineLoadOk : Bool) (jobs : List (List RoiFrame))
    (snap_count : Nat) : List FireResult :=
  if engineLoadOk then jobs.map (fun r => workerProcessJob r snap_count)
  else [{ ok := false, fire_hits := 0, best_score := 0, saved := [],
          err := some "Failed to load fire engine" }]

/-! ### NMS postprocessing (nms_xyxy lines 377-399) -/

/-- A corner-form box. -/
structure Box where
  x1 : ℚ
  y1 : ℚ
  x2 : ℚ
  y2 : ℚ
deriving DecidableEq, Repr, Inhabited

/-- Box area with the +1 convention of line 383:
(x2 - x1 + 1) * (y2 - y1 + 1). -/
def boxArea (b : Box) : ℚ := (b.x2 - b.x1 + 1) * (b.y2 - b.y1 + 1)

/-- Intersection area with the same +1 convention, clamped at 0 in each
dimension (lines 389-395). -/
def interArea (a b : Box) : ℚ :=
  max 0 (min a.x2 b.x2 - max a.x1 b.x1 + 1) *
  max 0 (min a.y2 b.y2 - max a.y1 b.y1 + 1)

/-- Intersection over union as computed at line 396. -/
def iou (a b : Box) : ℚ :=
  interArea a b / (boxArea a + boxArea b - interArea a b)

/-- Box lookup by index. -/
def boxAt (boxes : List Box) (i : Nat) : Box := boxes.getD i default

/-- Score lookup by index. -/
def scoreAt (scores : List ℚ) (i : Nat) : ℚ := scores.getD i 0

/-- Suppression test of line 397: a candidate j is removed by a kept box
i exactly when their IoU strictly exceeds the threshold. -/
def suppressed (boxes : List Box) (thr : ℚ) (i j : Nat) : Bool :=
  decide (thr < iou (boxAt boxes i) (boxAt boxes j))

/-- The comparison realised by numpy argsort on the scores: ascending by
score, equal scores ordered by original index (argsort on small inputs
runs an insertion sort, which is stable). -/
def argRel (scores : List ℚ) (i j : Nat) : Prop :=
  scoreAt scores i < scoreAt scores j ∨
    (scoreAt scores i = scoreAt scores j ∧ i ≤ j)

instance instDecArgRel (scores : List ℚ) : DecidableRel (argRel scores) :=
  fun i j =>
    inferInstanceAs (Decidable (scoreAt scores i < scoreAt scores j ∨
      (scoreAt scores i = scoreAt scores j ∧ i ≤ j)))

instance instTotalArgRel (scores : List ℚ) : IsTotal Nat (argRel scores) where
  total a b := by
    unfold argRel
    rcases lt_trichotomy (scoreAt scores a) (scoreAt scores b) with h | h | h
    · exact Or.inl (Or.inl h)
    · rcases Nat.le_total a b with hab | hab
      · exact Or.inl (Or.inr ⟨h, hab⟩)
      · exact Or.inr (Or.inr ⟨h.symm, hab⟩)
    · exact Or.inr (Or.inl h)

instance instTransArgRel (scores : List ℚ) : IsTrans Nat (argRel scores) where
  trans a b c hab hbc := by
    unfold argRel at *
    rcases hab with h1 | ⟨h1, h1n⟩ <;> rcases hbc with h2 | ⟨h2, h2n⟩
    · exact Or.inl (h1.trans h2)
    · exact Or.inl (h2 ▸ h1)
    · exact Or.inl (h1 ▸ h2)
    · exact Or.inr ⟨h1.trans h2, h1n.trans h2n⟩

/-- Model of scores.argsort() at line 384: the index list 0 .. n-1
sorted ascending by score, stable on ties. -/
def argsort (scores : List ℚ) : List Nat :=
  List.insertionSort (argRel scores) (List.range scores.length)

/-- The processing order of the NMS loop: the reversed argsort
(scores.argsort()[::-1], line 384). -/
def nmsOrder (scores : List ℚ) : List Nat := (argsort scores).reverse

/-- The while loop of lines 386-398: keep the head of the order, drop
from the remainder every index whose IoU with the head exceeds the
threshold, continue on what is left. The fuel argument is structural:
each iteration consumes the head and filtering never grows the list, so
fuel equal to the length of the order never runs out. -/
def nmsLoopGo (boxes : List Box) (thr : ℚ) : Nat → List Nat → List Nat
  | 0, _ => []
  | _ + 1, [] => []
  | fuel + 1, i :: rest =>
    i :: nmsLoopGo boxes thr fuel
      (rest.filter (fun j => !suppressed boxes thr i j))

/-- Faithful model of nms_xyxy (lines 377-399): empty input gives an
empty keep list, otherwise run the greedy loop over the reversed
argsort order. Returns kept indices into the input lists. -/
def nms_xyxy (boxes : List Box) (scores : List ℚ) (thr : ℚ) : List Nat :=
  if boxes.isEmpty then []
  else nmsLoopGo boxes thr (nmsOrder scores).length (nmsOrder scores)

/-- Spec-level greedy NMS: walk the candidate order, keeping a candidate
exactly when no previously kept box suppresses it. -/
def greedyNMS (boxes : List Box) (thr : ℚ) : List Nat → List Nat → List Nat
  | _, [] => []
  | kept, j :: rest =>
    if kept.all (fun i => !suppressed boxes thr i j) then
      j :: greedyNMS boxes thr (kept ++ [j]) rest
    else greedyNMS boxes thr kept rest

/-- Modelled from the spec: the stable descending order the spec asserts
(descending by score, and on equal scores the box appearing first in the
input considered first). -/
def specFirstSeenOrder (scores : List ℚ) : List Nat :=
  List.insertionSort
    (fun i j => scoreAt scores j < scoreAt scores i ∨
      (scoreAt scores i = scoreAt scores j ∧ i ≤ j))
    (List.range scores.length)

/-- Modelled from the spec: greedy NMS over the first-seen-wins
descending order, as the spec sentence describes it. -/
def specNMSFirstSeen (boxes : List Box) (scores : List ℚ) (thr : ℚ) :
    List Nat :=
  if boxes.isEmpty then []
  else greedyNMS boxes thr [] (specFirstSeenOrder scores)

/-! ### Support lemmas -/

/-- Draining one Result never touches the gate and treats the gate field
as inert. -/
theorem drainOne_gate (now : ℚ) (c : Nat) (h : ℚ) (s : LoopState)
    (g : GateState) (r : FireResult) :
    drainOne now c h { s with gate := g } r =
      { drainOne now c h s r with gate := g } := by
  unfold drainOne
  split_ifs <;> rfl

/-- Draining any list of Results treats the gate field as inert. -/
theorem drainAll_gate (now : ℚ) (c : Nat) (h : ℚ) (s : LoopState)
    (g : GateState) (rs : List FireResult) :
    drainAll now c h { s with gate := g } rs =
      { drainAll now c h s rs with gate := g } := by
  induction rs generalizing s with
  | nil => rfl
  | cons r rs ih =>
    simp only [drainAll, List.foldl_cons] at *
    rw [drainOne_gate, ih]

/-- Draining one Result either stamps last_fire_check with the current
time or leaves it unchanged. -/
theorem drainOne_lfc (now : ℚ) (c : Nat) (h : ℚ) (s : LoopState)
    (r : FireResult) :
    (drainOne now c h s r).last_fire_check = now ∨
      (drainOne now c h s r).last_fire_check = s.last_fire_check := by
  unfold drainOne
  split_ifs <;> simp

/-- Draining any Result list either stamps last_fire_check with the
current time or leaves it unchanged. -/
theorem drainAll_lfc (now : ℚ) (c : Nat) (h : ℚ) (s : LoopState)
    (rs : List FireResult) :
    (drainAll now c h s rs).last_fire_check = now ∨
      (drainAll now c h s rs).last_fire_check = s.last_fire_check := by
  induction rs generalizing s with
  | nil => exact Or.inr rfl
  | cons r rs ih =>
    simp only [drainAll, List.foldl_cons] at *
    rcases ih (drainOne now c h s r) with h1 | h1
    · exact Or.inl h1
    · rw [h1]
      exact drainOne_lfc now c h s r

/-- Draining never touches the job channel. -/
theorem drainOne_channel (now : ℚ) (c : Nat) (h : ℚ) (s : LoopState)
    (r : FireResult) :
    (drainOne now c h s r).job_channel = s.job_channel := by
  unfold drainOne
  split_ifs <;> simp

/-- Draining a Result list never touches the job channel. -/
theorem drainAll_channel (now : ℚ) (c : Nat) (h : ℚ) (s : LoopState)
    (rs : List FireResult) :
    (drainAll now c h s rs).job_channel = s.job_channel := by
  induction rs generalizing s with
  | nil => rfl
  | cons r rs ih =>
    simp only [drainAll, List.foldl_cons] at *
    rw [ih, drainOne_channel]

/-! ### Claim theorems -/

/-- C1: each qualifying frame increments the consecutive counter by one,
each non-qualifying frame resets the counter to zero and clears the
alert-sent flag, the confirmed output holds exactly when the counter is
at least N, and with N = 3 five consecutive qualifying frames confirm
exactly from tick 3 through tick 5. -/
theorem C1_confirmation_gate :
    (∀ g : GateState,
      gateStep g true = ⟨g.smoke_consec + 1, g.smoke_alert_sent⟩) ∧
    (∀ g : GateState, gateStep g false = ⟨0, false⟩) ∧
    (∀ (n : Nat) (g : GateState),
      smoke_confirmed n g = true ↔ n ≤ g.smoke_consec) ∧
    ((List.range 5).map
        (fun k => smoke_confirmed 3 (runGate (List.replicate (k + 1) true))) =
      [false, false, true, true, true]) := by
  refine ⟨fun g => rfl, fun g => rfl, fun n g => ?_, by decide⟩
  simp [smoke_confirmed]

/-- C2: has_fire holds exactly when now is strictly before
fire_hold_until; a drained successful Result whose hit count reaches the
confirm threshold sets fire_hold_until to now plus the hold duration, so
with a 3 second hold a confirming Result at time t keeps has_fire true
on [t, t+3) and false at t+3. -/
theorem C2_hold_timer :
    (∀ t h : ℚ, has_fire t h = true ↔ t < h) ∧
    (∀ (now hold : ℚ) (c : Nat) (s : LoopState) (r : FireResult),
      r.ok = true → c ≤ r.fire_hits →
      (drainOne now c hold s r).fire_hold_until = now + hold) ∧
    (∀ t u : ℚ, t ≤ u → u < t + 3 → has_fire u (t + 3) = true) ∧
    (∀ t : ℚ, has_fire (t + 3) (t + 3) = false) := by
  refine ⟨fun t h => by simp [has_fire], ?_, ?_, fun t => by simp [has_fire]⟩
  · intro now hold c s r hok hc
    unfold drainOne
    rw [if_pos hok, if_pos hc]
    rcases hs : r.saved.isEmpty with _ | _ <;> simp [hs]
  · intro t u _ h2
    simpa [has_fire] using h2

/-- Concrete sample state used by several witnesses. -/
def sampleState : LoopState :=
  ⟨⟨0, false⟩, 0, 0, 0, 0, none⟩

/-- A confirming Result: ok, 2 hits, snapshots written. -/
def confirmResult : FireResult :=
  ⟨true, 2, 1/2, [0, 1, 2], none⟩

/-- Witness for C2: a confirming Result drained at t = 10 with hold 3
gives hold-until 13, has_fire true at 12 and false at 13. -/
theorem C2_hold_timer_witness :
    (drainOne 10 2 3 sampleState confirmResult).fire_hold_until = 10 + 3 ∧
    has_fire 12 (10 + 3) = true ∧
    has_fire (10 + 3) (10 + 3) = false :=
  ⟨C2_hold_timer.2.1 10 3 2 sampleState confirmResult rfl (by decide),
   C2_hold_timer.2.2.1 10 12 (by norm_num) (by norm_num),
   C2_hold_timer.2.2.2 10⟩

/-- The alert-flag update never changes the consecutive counter. -/
theorem tickGate_consec (cfg : LoopCfg) (s : LoopState) (inp : TickInput) :
    (tickGate cfg s inp).smoke_consec =
      (gateStep s.gate inp.qualifying).smoke_consec := by
  unfold tickGate
  dsimp only
  split <;> rfl

/-- The post-drain hold timer does not depend on the gate update. -/
theorem tickDrained_fhu (cfg : LoopCfg) (s : LoopState) (inp : TickInput) :
    (tickDrained cfg s inp).fire_hold_until =
      (drainAll inp.now cfg.fire_confirm cfg.fire_hold s
        inp.results).fire_hold_until := by
  unfold tickDrained
  rw [drainAll_gate]

/-- The attempted flag returned by tick is exactly tickAttempt. -/
theorem tick_snd (cfg : LoopCfg) (s : LoopState) (inp : TickInput) :
    (tick cfg s inp).2 = tickAttempt cfg s inp := by
  unfold tick
  cases hb : tickAttempt cfg s inp <;> simp [hb]

/-- The tick attempts a fire check exactly when the gate confirms, the
cooldown has elapsed against the pre-drain last_fire_check, and the
post-drain hold timer is not active. -/
theorem tick_attempt_iff (cfg : LoopCfg) (s : LoopState) (inp : TickInput) :
    (tick cfg s inp).2 =
      (smoke_confirmed cfg.smoke_consec_n (gateStep s.gate inp.qualifying) &&
        decide (cfg.fire_check_cooldown ≤ inp.now - s.last_fire_check) &&
        !has_fire inp.now
          (drainAll inp.now cfg.fire_confirm cfg.fire_hold s
            inp.results).fire_hold_until) := by
  rw [tick_snd]
  unfold tickAttempt
  rw [tickDrained_fhu]

/-- An attempted tick stamps last_fire_check with the tick time. -/
theorem tick_attempt_lfc (cfg : LoopCfg) (s : LoopState) (inp : TickInput) :
    (tick cfg s inp).2 = true →
    (tick cfg s inp).1.last_fire_check = inp.now := by
  intro h
  have hb : tickAttempt cfg s inp = true := by rw [← tick_snd]; exact h
  simp only [tick, hb, if_true]

/-- Any tick either stamps last_fire_check with the tick time or leaves
it unchanged. -/
theorem tick_lfc (cfg : LoopCfg) (s : LoopState) (inp : TickInput) :
    (tick cfg s inp).1.last_fire_check = inp.now ∨
      (tick cfg s inp).1.last_fire_check = s.last_fire_check := by
  cases hb : tickAttempt cfg s inp
  · simp only [tick, hb, Bool.false_eq_true, if_false]
    exact drainAll_lfc inp.now cfg.fire_confirm cfg.fire_hold
      { s with gate := tickGate cfg s inp } inp.results
  · simp only [tick, hb, if_true]
    exact Or.inl trivial

/-- Along any run whose tick times stay at or above a bound that the
starting last_fire_check already meets, last_fire_check never drops
below that bound. -/
theorem runTicks_lfc_ge (cfg : LoopCfg) (l : List TickInput) :
    ∀ (s : LoopState) (c : ℚ), c ≤ s.last_fire_check →
    (∀ x ∈ l, c ≤ x.now) → c ≤ (runTicks cfg s l).last_fire_check := by
  induction l with
  | nil => intro s c hs _; exact hs
  | cons a l ih =>
    intro s c hs hl
    simp only [runTicks, List.foldl_cons] at *
    have hstep : c ≤ (tick cfg s a).1.last_fire_check := by
      rcases tick_lfc cfg s a with h | h
      · rw [h]; exact hl a (by simp)
      · rw [h]; exact hs
    exact ih (tick cfg s a).1 c hstep (fun x hx => hl x (by simp [hx]))

/-- An attempted tick with an empty job channel deposits the built
Job. -/
theorem tick_submit (cfg : LoopCfg) (s : LoopState) (inp : TickInput) :
    s.job_channel = none → (tick cfg s inp).2 = true →
    (tick cfg s inp).1.job_channel = some (tickJob cfg s inp) := by
  intro hn hattempt
  have hb : tickAttempt cfg s inp = true := by
    rw [← tick_snd]
    exact hattempt
  have hch : (tickDrained cfg s inp).job_channel = none := by
    unfold tickDrained
    rw [drainAll_channel]
    exact hn
  simp only [tick, hb, if_true]
  rw [hch]

/-- Sample configuration for the concrete scenarios: confirm threshold
1, fire confirm 2, cooldown 3 s, hold 3 s, burst 6 frames at stride 2,
3 snapshots. -/
def sampleCfg : LoopCfg := ⟨1, 2, 3, 3, 6, 2, 3⟩

/-- Idle starting state: cold gate, cooldown long expired, no hold, no
pending job. -/
def idleState : LoopState := ⟨⟨0, false⟩, -100, 0, 0, 0, none⟩

/-- A qualifying tick input at time t with no results, an empty ring and
a well-behaved live frame. -/
def qualInput (t : ℚ) : TickInput :=
  ⟨t, true, false, [], [], ⟨true, []⟩, true⟩

/-- C3: a fire check is attempted exactly when smoke is confirmed, the
cooldown has elapsed since last_fire_check, and the hold is inactive;
every attempt stamps last_fire_check with the attempt time regardless of
the submit outcome; hence two attempts are never closer than the
cooldown; and with cooldown 3 s, attempts at t = 0 and t = 2 see the
second suppressed while t = 3.1 succeeds. -/
theorem C3_trigger_gate :
    (∀ (cfg : LoopCfg) (s : LoopState) (inp : TickInput),
      (tick cfg s inp).2 =
        (smoke_confirmed cfg.smoke_consec_n (gateStep s.gate inp.qualifying) &&
          decide (cfg.fire_check_cooldown ≤ inp.now - s.last_fire_check) &&
          !has_fire inp.now
            (drainAll inp.now cfg.fire_confirm cfg.fire_hold s
              inp.results).fire_hold_until)) ∧
    (∀ (cfg : LoopCfg) (s : LoopState) (inp : TickInput),
      (tick cfg s inp).2 = true →
      (tick cfg s inp).1.last_fire_check = inp.now) ∧
    (∀ (cfg : LoopCfg) (s : LoopState) (a : TickInput) (l : List TickInput)
        (b : TickInput),
      (tick cfg s a).2 = true →
      (∀ x ∈ l, a.now ≤ x.now) →
      (tick cfg (runTicks cfg (tick cfg s a).1 l) b).2 = true →
      a.now + cfg.fire_check_cooldown ≤ b.now) ∧
    ((tick sampleCfg idleState (qualInput 0)).2 = true ∧
      (tick sampleCfg (tick sampleCfg idleState (qualInput 0)).1
        (qualInput 2)).2 = false ∧
      (tick sampleCfg (tick sampleCfg (tick sampleCfg idleState
        (qualInput 0)).1 (qualInput 2)).1 (qualInput (31/10))).2 = true) := by
  refine ⟨tick_attempt_iff, tick_attempt_lfc, ?_, ?_⟩
  · intro cfg s a l b ha hl hb
    have h1 : (tick cfg s a).1.last_fire_check = a.now :=
      tick_attempt_lfc cfg s a ha
    have h2 : a.now ≤ (runTicks cfg (tick cfg s a).1 l).last_fire_check :=
      runTicks_lfc_ge cfg l (tick cfg s a).1 a.now (le_of_eq h1.symm) hl
    rw [tick_attempt_iff] at hb
    simp only [Bool.and_eq_true] at hb
    have hcb := of_decide_eq_true hb.1.2
    linarith
  · refine ⟨?_, ?_, ?_⟩ <;>
      norm_num [tick, tickAttempt, tickGate, tickDrained, tickJob, sampleCfg,
        idleState, qualInput, gateStep, smoke_confirmed, drainAll, has_fire,
        buildBurst, collectBurst, collectBurstGo, List.foldl]

/-- Witness for C3: from the idle state an attempt fires at t = 0 and,
with nothing in between, a second attempt at t = 5 implies the two are
at least the 3 second cooldown apart. -/
theorem C3_trigger_gate_witness :
    (qualInput 0).now + sampleCfg.fire_check_cooldown ≤ (qualInput 5).now :=
  C3_trigger_gate.2.2.1 sampleCfg idleState (qualInput 0) [] (qualInput 5)
    (by norm_num [tick, tickAttempt, tickGate, tickDrained, tickJob, sampleCfg,
      idleState, qualInput, gateStep, smoke_confirmed, drainAll, has_fire,
      buildBurst, collectBurst, collectBurstGo, List.foldl])
    (by simp)
    (by norm_num [tick, tickAttempt, tickGate, tickDrained, tickJob, runTicks,
      sampleCfg, idleState, qualInput, gateStep, smoke_confirmed, drainAll,
      has_fire, buildBurst, collectBurst, collectBurstGo, List.foldl])

/-- C4: the Job channel has capacity one and a submission attempted
while it already holds an unconsumed Job leaves that Job in place (the
new Job is silently dropped, no error reaches the loop) while
last_fire_check is still stamped with the attempt time; when the channel
is empty the attempt deposits the built Job. -/
theorem C4_job_backpressure :
    (∀ (cfg : LoopCfg) (s : LoopState) (inp : TickInput) (j : Job),
      s.job_channel = some j →
      (tick cfg s inp).1.job_channel = some j ∧
      ((tick cfg s inp).2 = true →
        (tick cfg s inp).1.last_fire_check = inp.now)) ∧
    (∀ (cfg : LoopCfg) (s : LoopState) (inp : TickInput),
      s.job_channel = none → (tick cfg s inp).2 = true →
      (tick cfg s inp).1.job_channel =
        some ⟨buildBurst inp.ring cfg.burst_stride cfg.burst_frames
          inp.live inp.liveEncodeOk, inp.now,
          (gateStep s.gate inp.qualifying).smoke_consec⟩) := by
  constructor
  · intro cfg s inp j hj
    have hch : (tickDrained cfg s inp).job_channel = some j := by
      unfold tickDrained
      rw [drainAll_channel]
      exact hj
    refine ⟨?_, tick_attempt_lfc cfg s inp⟩
    cases hb : tickAttempt cfg s inp
    · simp only [tick, hb, Bool.false_eq_true, if_false]
      exact hch
    · simp only [tick, hb, if_true]
      rw [hch]
      exact hch
  · intro cfg s inp hn hattempt
    rw [tick_submit cfg s inp hn hattempt]
    simp [tickJob, tickGate_consec]

/-- A Job already sitting unconsumed in the channel. -/
def pendingJob : Job := ⟨[], -1, 1⟩

/-- The idle state with the job channel occupied. -/
def busyState : LoopState := ⟨⟨0, false⟩, -100, 0, 0, 0, some pendingJob⟩

/-- Witness for C4: an attempt at t = 0 with the channel occupied keeps
the pending Job and still stamps last_fire_check. -/
theorem C4_job_backpressure_witness :
    (tick sampleCfg busyState (qualInput 0)).1.job_channel = some pendingJob ∧
    (tick sampleCfg busyState (qualInput 0)).1.last_fire_check =
      (qualInput 0).now :=
  ⟨(C4_job_backpressure.1 sampleCfg busyState (qualInput 0) pendingJob rfl).1,
   (C4_job_backpressure.1 sampleCfg busyState (qualInput 0) pendingJob rfl).2
     (by norm_num [tick, tickAttempt, tickGate, tickDrained, tickJob, sampleCfg,
       busyState, qualInput, gateStep, smoke_confirmed, drainAll, has_fire,
       buildBurst, collectBurst, collectBurstGo, List.foldl])⟩

/-- An enabled alerter with a full task queue. -/
def fullQueueAlerter : AlerterState := ⟨true, 3/10, 10, 5, 0, 0, 10⟩

/-- Counterexample for C5: with valid credentials, confidence above the
floor and the cooldown long elapsed, a call hitting the full task queue
returns false yet has a side effect (the smoke timestamp moves to the
call time), contradicting that queue-full rejections are side-effect
free. -/
theorem C5_notifier_counterexample :
    (send_smoke_alert fullQueueAlerter (1/2) 100 true).1 = false ∧
    (send_smoke_alert fullQueueAlerter (1/2) 100 true).2 ≠ fullQueueAlerter := by
  constructor
  · norm_num [send_smoke_alert, fullQueueAlerter]
  · norm_num [send_smoke_alert, fullQueueAlerter, AlerterState.mk.injEq]

/-- C5 amended: for each kind, enqueue returns false when the channel is
disabled, the confidence is below the floor, the per-kind cooldown has
not elapsed (these three without side effects), the JPEG encode fails,
or the capacity-10 queue is full (these two still stamping the per-kind
timestamp); with valid credentials, confidence at or above the floor, a
successful encode and a non-full queue, a call at least cooldown seconds
after the last timestamp update returns true. -/
theorem C5_notifier_amended :
    (∀ (s : AlerterState) (conf now : ℚ) (eok : Bool),
      s.enabled = false → send_smoke_alert s conf now eok = (false, s)) ∧
    (∀ (s : AlerterState) (conf now : ℚ) (eok : Bool),
      conf < s.min_confidence → send_smoke_alert s conf now eok = (false, s)) ∧
    (∀ (s : AlerterState) (conf now : ℚ) (eok : Bool),
      now - s.last_smoke_time < s.smoke_cooldown →
      send_smoke_alert s conf now eok = (false, s)) ∧
    (∀ (s : AlerterState) (conf now : ℚ),
      s.enabled = true → ¬conf < s.min_confidence →
      ¬now - s.last_smoke_time < s.smoke_cooldown →
      send_smoke_alert s conf now false =
        (false, { s with last_smoke_time := now })) ∧
    (∀ (s : AlerterState) (conf now : ℚ),
      s.enabled = true → ¬conf < s.min_confidence →
      ¬now - s.last_smoke_time < s.smoke_cooldown → 10 ≤ s.queue_len →
      send_smoke_alert s conf now true =
        (false, { s with last_smoke_time := now })) ∧
    (∀ (s : AlerterState) (conf now : ℚ),
      s.enabled = true → ¬conf < s.min_confidence →
      ¬now - s.last_smoke_time < s.smoke_cooldown → s.queue_len < 10 →
      (send_smoke_alert s conf now true).1 = true) ∧
    (∀ (s : AlerterState) (conf now : ℚ) (eok : Bool),
      s.enabled = false → send_fire_alert s conf now eok = (false, s)) ∧
    (∀ (s : AlerterState) (conf now : ℚ) (eok : Bool),
      conf < s.min_confidence → send_fire_alert s conf now eok = (false, s)) ∧
    (∀ (s : AlerterState) (conf now : ℚ) (eok : Bool),
      now - s.last_fire_time < s.fire_cooldown →
      send_fire_alert s conf now eok = (false, s)) ∧
    (∀ (s : AlerterState) (conf now : ℚ),
      s.enabled = true → ¬conf < s.min_confidence →
      ¬now - s.last_fire_time < s.fire_cooldown →
      send_fire_alert s conf now false =
        (false, { s with last_fire_time := now })) ∧
    (∀ (s : AlerterState) (conf now : ℚ),
      s.enabled = true → ¬conf < s.min_confidence →
      ¬now - s.last_fire_time < s.fire_cooldown → 10 ≤ s.queue_len →
      send_fire_alert s conf now true =
        (false, { s with last_fire_time := now })) ∧
    (∀ (s : AlerterState) (conf now : ℚ),
      s.enabled = true → ¬conf < s.min_confidence →
      ¬now - s.last_fire_time < s.fire_cooldown → s.queue_len < 10 →
      (send_fire_alert s conf now true).1 = true) := by
  refine ⟨?_, ?_, ?_, ?_, ?_, ?_, ?_, ?_, ?_, ?_, ?_, ?_⟩
  · intro s conf now eok h
    simp [send_smoke_alert, h]
  · intro s conf now eok h
    simp [send_smoke_alert, h]
  · intro s conf now eok h
    simp [send_smoke_alert, h]
  · intro s conf now h1 h2 h3
    simp [send_smoke_alert, h1, h2, h3]
  · intro s conf now h1 h2 h3 h4
    simp [send_smoke_alert, h1, h2, h3, h4]
  · intro s conf now h1 h2 h3 h4
    have h5 : ¬10 ≤ s.queue_len := by omega
    simp [send_smoke_alert, h1, h2, h3, h5]
  · intro s conf now eok h
    simp [send_fire_alert, h]
  · intro s conf now eok h
    simp [send_fire_alert, h]
  · intro s conf now eok h
    simp [send_fire_alert, h]
  · intro s conf now h1 h2 h3
    simp [send_fire_alert, h1, h2, h3]
  · intro s conf now h1 h2 h3 h4
    simp [send_fire_alert, h1, h2, h3, h4]
  · intro s conf now h1 h2 h3 h4
    have h5 : ¬10 ≤ s.queue_len := by omega
    simp [send_fire_alert, h1, h2, h3, h5]

/-- An enabled alerter, cold timestamps, empty queue. -/
def readyAlerter : AlerterState := ⟨true, 3/10, 10, 5, 0, 0, 0⟩

/-- Witness for the amended C5: a well-past-cooldown call with good
confidence on an enabled alerter with room in the queue is accepted, for
both kinds. -/
theorem C5_notifier_amended_witness :
    (send_smoke_alert readyAlerter (1/2) 100 true).1 = true ∧
    (send_fire_alert readyAlerter (1/2) 100 true).1 = true :=
  ⟨C5_notifier_amended.2.2.2.2.2.1 readyAlerter (1/2) 100 rfl
      (by norm_num [readyAlerter]) (by norm_num [readyAlerter])
      (by norm_num [readyAlerter]),
   C5_notifier_amended.2.2.2.2.2.2.2.2.2.2.2 readyAlerter (1/2) 100 rfl
      (by norm_num [readyAlerter]) (by norm_num [readyAlerter])
      (by norm_num [readyAlerter])⟩

/-- A successful Result below the confirm threshold, snapshots written
anyway. -/
def subThresholdResult : FireResult := ⟨true, 1, 1/2, [0], none⟩

/-- A failed Result as the worker emits on engine-load failure. -/
def failedResult : FireResult :=
  ⟨false, 0, 0, [], some "Failed to load fire engine"⟩

/-- Counterexample for C6: a drained successful Result carrying a
non-empty snapshot list but with hit count 1 below the threshold 2 does
not record last_fire_snapshot (it stays 0, not the drain time 10); and a
drained failed Result does not update last_fire_check either. -/
theorem C6_result_drain_counterexample :
    subThresholdResult.saved ≠ [] ∧
    (drainOne 10 2 3 sampleState subThresholdResult).last_fire_snapshot = 0 ∧
    (10 : ℚ) ≠ 0 ∧
    (drainOne 10 2 3 sampleState failedResult).last_fire_check = 0 := by
  refine ⟨by simp [subThresholdResult], ?_, by norm_num, ?_⟩
  · norm_num [drainOne, sampleState, subThresholdResult]
  · norm_num [drainOne, sampleState, failedResult]

/-- C6 amended: every successfully drained Result updates
last_fire_check; when its hit count reaches the threshold the hold timer
and last_fire_confirm are set and, only within that confirmed case, a
non-empty snapshot list records last_fire_snapshot; a sub-threshold
successful Result changes last_fire_check only, and a failed Result
changes nothing. -/
theorem C6_result_drain_amended :
    ∀ (now hold : ℚ) (c : Nat) (s : LoopState) (r : FireResult),
      (r.ok = true → (drainOne now c hold s r).last_fire_check = now) ∧
      (r.ok = true → c ≤ r.fire_hits →
        (drainOne now c hold s r).fire_hold_until = now + hold ∧
        (drainOne now c hold s r).last_fire_confirm = now ∧
        (r.saved ≠ [] →
          (drainOne now c hold s r).last_fire_snapshot = now)) ∧
      (r.ok = true → r.fire_hits < c →
        drainOne now c hold s r = { s with last_fire_check := now }) ∧
      (r.ok = false → drainOne now c hold s r = s) := by
  intro now hold c s r
  refine ⟨?_, ?_, ?_, ?_⟩
  · intro hok
    unfold drainOne
    rw [if_pos hok]
    split_ifs <;> rfl
  · intro hok hc
    refine ⟨?_, ?_, ?_⟩
    · unfold drainOne
      rw [if_pos hok, if_pos hc]
      split_ifs <;> rfl
    · unfold drainOne
      rw [if_pos hok, if_pos hc]
      split_ifs <;> rfl
    · intro hs
      have hs2 : r.saved.isEmpty = false := by
        simpa [List.isEmpty_iff] using hs
      unfold drainOne
      rw [if_pos hok, if_pos hc, hs2]
      rfl
  · intro hok hlt
    have hc : ¬c ≤ r.fire_hits := by omega
    unfold drainOne
    rw [if_pos hok, if_neg hc]
  · intro hok
    unfold drainOne
    rw [hok]
    rfl

/-- Witness for the amended C6: a confirming Result with snapshots
drained at t = 10 stamps check, hold and snapshot times, and a failed
Result leaves the state untouched. -/
theorem C6_result_drain_amended_witness :
    (drainOne 10 2 3 sampleState confirmResult).last_fire_check = 10 ∧
    (drainOne 10 2 3 sampleState confirmResult).fire_hold_until = 10 + 3 ∧
    (drainOne 10 2 3 sampleState confirmResult).last_fire_snapshot = 10 ∧
    drainOne 10 2 3 sampleState failedResult = sampleState :=
  ⟨(C6_result_drain_amended 10 3 2 sampleState confirmResult).1 rfl,
   ((C6_result_drain_amended 10 3 2 sampleState confirmResult).2.1 rfl
     (by decide)).1,
   ((C6_result_drain_amended 10 3 2 sampleState confirmResult).2.1 rfl
     (by decide)).2.2 (by decide),
   (C6_result_drain_amended 10 3 2 sampleState failedResult).2.2.2 rfl⟩

/-- The hit counter of the worker loop counts exactly the decodable
frames whose filtered detection list is non-empty. -/
theorem workerLoop_hits :
    ∀ (rois : List RoiFrame) (hits : Nat) (best : ℚ) (bs : Bool),
      (workerLoop rois hits best bs).1 =
        hits + rois.countP (fun f => f.decodeOk && !f.detScores.isEmpty) := by
  intro rois
  induction rois with
  | nil =>
    intro hits best bs
    simp [workerLoop]
  | cons f rest ih =>
    intro hits best bs
    rcases hd : f.decodeOk with _ | _
    · simp [workerLoop, hd, ih, List.countP_cons]
    · rcases he : f.detScores.isEmpty with _ | _
      · simp only [workerLoop, hd, he, if_true, Bool.false_eq_true, if_false]
        split_ifs <;> simp [ih, List.countP_cons, hd, he] <;> omega
      · simp [workerLoop, hd, he, ih, List.countP_cons]

/-- C7: with the engine loaded the worker emits exactly one Result per
Job, each a success whose hit count is the number of burst frames with
at least one qualifying detection (possibly zero); an engine load
failure at startup yields exactly one failed Result carrying the error,
after which the worker exits. -/
theorem C7_fire_worker :
    (∀ (jobs : List (List RoiFrame)) (c : Nat),
      (fireWorker true jobs c).length = jobs.length) ∧
    (∀ (jobs : List (List RoiFrame)) (c : Nat),
      fireWorker true jobs c = jobs.map (fun r => workerProcessJob r c)) ∧
    (∀ (rois : List RoiFrame) (c : Nat),
      (workerProcessJob rois c).ok = true ∧
      (workerProcessJob rois c).fire_hits =
        rois.countP (fun f => f.decodeOk && !f.detScores.isEmpty)) ∧
    (∀ (jobs : List (List RoiFrame)) (c : Nat),
      fireWorker false jobs c =
        [⟨false, 0, 0, [], some "Failed to load fire engine"⟩]) := by
  refine ⟨?_, ?_, ?_, ?_⟩
  · intro jobs c
    simp [fireWorker]
  · intro jobs c
    simp [fireWorker]
  · intro rois c
    refine ⟨rfl, ?_⟩
    simp [workerProcessJob, workerLoop_hits]
  · intro jobs c
    simp [fireWorker]

/-- The ring walk never collects more than the remaining need. -/
theorem collectBurstGo_length (ring : List RingEntry) (stride need : Nat) :
    ∀ (fuel i1 taken : Nat),
      (collectBurstGo ring stride need fuel i1 taken).length ≤ need - taken := by
  intro fuel
  induction fuel with
  | zero =>
    intro i1 taken
    simp [collectBurstGo]
  | succ fuel ih =>
    intro i1 taken
    match i1 with
    | 0 => simp [collectBurstGo]
    | i + 1 =>
      simp only [collectBurstGo]
      split_ifs with h1 h2
      · have := ih (i + 1 - max 1 stride) (taken + 1)
        simp only [List.length_cons]
        omega
      · have := ih (i + 1 - max 1 stride) taken
        omega
      · simp

/-- A ring entry whose decode and re-encode both succeed. -/
def allOkEntry : RingEntry := ⟨true, true, ⟨true, []⟩⟩

/-- C8: the ring walk collects at most `need` frames; on a full 60-entry
buffer with stride 2 and need 6 and every decode succeeding, the sampled
indices are exactly 59, 57, 55, 53, 51, 49 (newest first); and when zero
frames come out of the walk the burst falls back to the single cropped
live frame. -/
theorem C8_burst_collection :
    (∀ (ring : List RingEntry) (stride need i1 : Nat),
      (collectBurst ring stride need i1 0).length ≤ need) ∧
    (collectBurst (List.replicate 60 allOkEntry) 2 6 60 0 =
      [59, 57, 55, 53, 51, 49]) ∧
    (∀ (ring : List RingEntry) (stride need : Nat) (live : RoiFrame),
      collectBurst ring stride need ring.length 0 = [] →
      buildBurst ring stride need live true = [live]) := by
  refine ⟨?_, by decide, ?_⟩
  · intro ring stride need i1
    have h := collectBurstGo_length ring stride need i1 i1 0
    simpa [collectBurst] using h
  · intro ring stride need live h
    simp [buildBurst, h]

/-- A well-behaved live frame. -/
def sampleLive : RoiFrame := ⟨true, []⟩

/-- Witness for C8: an empty ring buffer yields an empty walk and the
burst is the single live frame. -/
theorem C8_burst_collection_witness :
    buildBurst [] 2 6 sampleLive true = [sampleLive] :=
  C8_burst_collection.2.2 [] 2 6 sampleLive rfl

/-- Candidates suppressed by a box already kept can be filtered out of
the remaining order without changing the greedy outcome. -/
theorem greedyNMS_filter (boxes : List Box) (thr : ℚ) :
    ∀ (l kept : List Nat) (i : Nat), i ∈ kept →
      greedyNMS boxes thr kept
          (l.filter (fun j => !suppressed boxes thr i j)) =
        greedyNMS boxes thr kept l := by
  intro l
  induction l with
  | nil =>
    intro kept i hi
    rfl
  | cons x rest ih =>
    intro kept i hi
    rcases hs : suppressed boxes thr i x with _ | _
    · simp only [List.filter_cons, hs, Bool.not_false, if_true]
      simp only [greedyNMS]
      split_ifs with hall
      · rw [ih (kept ++ [x]) i (by simp [hi])]
      · exact ih kept i hi
    · have hall : kept.all (fun k => !suppressed boxes thr k x) = false := by
        rw [List.all_eq_false]
        exact ⟨i, hi, by simp [hs]⟩
      simp only [List.filter_cons, hs, Bool.not_true, Bool.false_eq_true,
        if_false]
      simp only [greedyNMS, hall, Bool.false_eq_true, if_false]
      exact ih kept i hi

/-- The source NMS loop coincides with spec-level greedy selection
whenever nothing already kept suppresses a pending candidate (in
particular from the empty kept list). -/
theorem nmsLoopGo_eq_greedy (boxes : List Box) (thr : ℚ) :
    ∀ (fuel : Nat) (l kept : List Nat), l.length ≤ fuel →
      (∀ j ∈ l, kept.all (fun i => !suppressed boxes thr i j) = true) →
      nmsLoopGo boxes thr fuel l = greedyNMS boxes thr kept l := by
  intro fuel
  induction fuel with
  | zero =>
    intro l kept hl _
    have h0 : l = [] := List.length_eq_zero.mp (Nat.le_zero.mp hl)
    subst h0
    rfl
  | succ fuel ih =>
    intro l kept hl hall
    match l with
    | [] => rfl
    | i :: rest =>
      have hi : kept.all (fun k => !suppressed boxes thr k i) = true :=
        hall i (by simp)
      simp only [nmsLoopGo, greedyNMS, hi, if_true]
      congr 1
      rw [← greedyNMS_filter boxes thr rest (kept ++ [i]) i (by simp)]
      apply ih
      · have hf := List.length_filter_le
          (fun j => !suppressed boxes thr i j) rest
        simp only [List.length_cons, Nat.succ_le_succ_iff] at hl
        omega
      · intro j hj
        have hjr : j ∈ rest := List.mem_of_mem_filter hj
        have hji := List.of_mem_filter hj
        rw [List.all_append, Bool.and_eq_true]
        exact ⟨hall j (by simp [hjr]), by simpa using hji⟩

/-- The NMS processing order is descending by score, equal scores in
reversed input order. -/
theorem nmsOrder_sorted (scores : List ℚ) :
    List.Pairwise (fun i j => scoreAt scores j < scoreAt scores i ∨
      (scoreAt scores i = scoreAt scores j ∧ j ≤ i)) (nmsOrder scores) := by
  have hs : List.Sorted (argRel scores) (argsort scores) :=
    List.sorted_insertionSort (argRel scores) (List.range scores.length)
  unfold nmsOrder
  rw [List.pairwise_reverse]
  refine hs.imp ?_
  intro a b hab
  rcases hab with h | ⟨he, hle⟩
  · exact Or.inl h
  · exact Or.inr ⟨he.symm, hle⟩

/-- C9 amended: NMS is greedy over the reversed stable ascending argsort
order, which is descending by score with equal scores visited in
reversed input order (last-seen first); a candidate is suppressed
exactly when its IoU with an already-kept box strictly exceeds the
threshold; areas carry the plus-one convention. -/
theorem C9_nms_amended :
    (∀ (boxes : List Box) (scores : List ℚ) (thr : ℚ),
      boxes.isEmpty = false →
      nms_xyxy boxes scores thr = greedyNMS boxes thr [] (nmsOrder scores)) ∧
    (∀ scores : List ℚ,
      List.Pairwise (fun i j => scoreAt scores j < scoreAt scores i ∨
        (scoreAt scores i = scoreAt scores j ∧ j ≤ i)) (nmsOrder scores)) ∧
    (∀ b : Box, boxArea b = (b.x2 - b.x1 + 1) * (b.y2 - b.y1 + 1)) ∧
    (∀ (boxes : List Box) (thr : ℚ) (i j : Nat),
      suppressed boxes thr i j = true ↔
        thr < iou (boxAt boxes i) (boxAt boxes j)) := by
  refine ⟨?_, nmsOrder_sorted, fun b => rfl, ?_⟩
  · intro boxes scores thr hne
    unfold nms_xyxy
    simp only [hne, Bool.false_eq_true, if_false]
    exact nmsLoopGo_eq_greedy boxes thr _ _ [] le_rfl (fun j _ => rfl)
  · intro boxes thr i j
    simp [suppressed]

/-- Two identical boxes with identical scores. -/
def tieBoxes : List Box := [⟨0, 0, 10, 10⟩, ⟨0, 0, 10, 10⟩]

/-- Their equal scores. -/
def tieScores : List ℚ := [9/10, 9/10]

/-- Counterexample for C9: on two identical boxes with equal scores the
source NMS keeps index 1 (the later box) because reversing the stable
ascending argsort visits equal scores in reversed input order, while a
first-seen-wins greedy pass as the spec states it keeps index 0. -/
theorem C9_nms_counterexample :
    nms_xyxy tieBoxes tieScores (1/2) = [1] ∧
    specNMSFirstSeen tieBoxes tieScores (1/2) = [0] ∧
    ([1] : List Nat) ≠ [0] := by
  refine ⟨?_, ?_, by decide⟩
  · norm_num [nms_xyxy, tieBoxes, tieScores, nmsOrder, argsort,
      List.insertionSort, List.orderedInsert, argRel, scoreAt, nmsLoopGo,
      suppressed, iou, interArea, boxArea, boxAt, List.filter]
  · norm_num [specNMSFirstSeen, tieBoxes, tieScores, specFirstSeenOrder,
      List.insertionSort, List.orderedInsert, scoreAt, greedyNMS,
      suppressed, iou, interArea, boxArea, boxAt]

/-- Witness for the amended C9 on the concrete tied input. -/
theorem C9_nms_amended_witness :
    nms_xyxy tieBoxes tieScores (1/2) =
      greedyNMS tieBoxes (1/2) [] (nmsOrder tieScores) :=
  C9_nms_amended.1 tieBoxes tieScores (1/2) rfl

/-- When no ring entry decodes, the walk collects nothing. -/
theorem collectBurstGo_nodecode (ring : List RingEntry) (stride need : Nat)
    (hall : ∀ e ∈ ring, e.decodeOk = false) :
    ∀ (fuel i1 taken : Nat),
      collectBurstGo ring stride need fuel i1 taken = [] := by
  intro fuel
  induction fuel with
  | zero =>
    intro i1 taken
    simp [collectBurstGo]
  | succ fuel ih =>
    intro i1 taken
    match i1 with
    | 0 => simp [collectBurstGo]
    | i + 1 =>
      have hd : (ring.getD i default).decodeOk = false := by
        rw [List.getD_eq_getElem?_getD]
        rcases hg : ring[i]? with _ | e
        · rfl
        · obtain ⟨hlt, he⟩ := List.getElem?_eq_some.mp hg
          have hm : e ∈ ring := he ▸ ring.getElem_mem hlt
          simp [hall e hm]
      simp only [collectBurstGo, hd, Bool.false_and, Bool.false_eq_true,
        if_false]
      split_ifs
      · exact ih (i + 1 - max 1 stride) taken
      · rfl

/-- C10: when no ring entry decodes and the live-frame encode fails the
burst is empty, an attempted check still submits a Job with an empty
burst list into the empty channel, and the worker turns that Job into a
success Result with zero hits, best score zero and no snapshots. -/
theorem C10_empty_burst :
    (∀ (ring : List RingEntry) (stride need : Nat) (live : RoiFrame),
      (∀ e ∈ ring, e.decodeOk = false) →
      buildBurst ring stride need live false = []) ∧
    (∀ (cfg : LoopCfg) (s : LoopState) (inp : TickInput),
      (∀ e ∈ inp.ring, e.decodeOk = false) →
      inp.liveEncodeOk = false →
      s.job_channel = none →
      (tick cfg s inp).2 = true →
      (tick cfg s inp).1.job_channel =
        some ⟨[], inp.now, (gateStep s.gate inp.qualifying).smoke_consec⟩) ∧
    (∀ c : Nat, workerProcessJob [] c = ⟨true, 0, 0, [], none⟩) := by
  have hbb : ∀ (ring : List RingEntry) (stride need : Nat) (live : RoiFrame),
      (∀ e ∈ ring, e.decodeOk = false) →
      buildBurst ring stride need live false = [] := by
    intro ring stride need live hall
    have h0 : collectBurst ring stride need ring.length 0 = [] :=
      collectBurstGo_nodecode ring stride need hall ring.length ring.length 0
    simp [buildBurst, h0]
  refine ⟨hbb, ?_, fun c => rfl⟩
  intro cfg s inp hall hlv hch hatt
  rw [tick_submit cfg s inp hch hatt]
  have hb0 : buildBurst inp.ring cfg.burst_stride cfg.burst_frames
      inp.live inp.liveEncodeOk = [] := by
    rw [hlv]
    exact hbb inp.ring cfg.burst_stride cfg.burst_frames inp.live hall
  simp [tickJob, tickGate_consec, hb0]

/-- A three-deep ring whose every entry fails to decode. -/
def badRing : List RingEntry :=
  [⟨false, true, ⟨true, []⟩⟩, ⟨false, true, ⟨true, []⟩⟩,
   ⟨false, true, ⟨true, []⟩⟩]

/-- A qualifying tick at t = 0 over the undecodable ring whose live
frame also fails to encode. -/
def badInput : TickInput :=
  ⟨0, true, false, [], badRing, ⟨true, []⟩, false⟩

/-- Witness for C10: the attempted check from the idle state over the
undecodable ring deposits a Job with an empty burst, and the worker maps
it to the zero-hit success Result. -/
theorem C10_empty_burst_witness :
    (tick sampleCfg idleState badInput).1.job_channel =
      some ⟨[], badInput.now,
        (gateStep idleState.gate badInput.qualifying).smoke_consec⟩ ∧
    workerProcessJob [] 3 = ⟨true, 0, 0, [], none⟩ :=
  ⟨C10_empty_burst.2.1 sampleCfg idleState badInput (by decide) rfl rfl
      (by norm_num [tick, tickAttempt, tickGate, tickDrained, tickJob,
        sampleCfg, idleState, badInput, badRing, gateStep, smoke_confirmed,
        drainAll, has_fire, buildBurst, collectBurst, collectBurstGo,
        List.foldl, List.getD]),
   C10_empty_burst.2.2 3⟩

end TwoStage
